import Mathlib

/-!
Verification development for the costa-vscode process bridge and polling
supervisors.  Shallow embedding of `src/cli.ts` (binary resolution,
subprocess invocation, error classification, typed facades) and of
`src/usageStream.ts` (the `UsageStream` timer state machine) together with
the login-polling loop of the `costa.login` command handler.

Conventions of the embedding:
- JavaScript `undefined`/absent fields are `Option`.
- Machine integers are `Nat`/`Int`; times are virtual milliseconds.
- Async functions are split at their `await` points: the synchronous
  prefix is one Lean function, the continuation that runs when the
  awaited promise settles is another, and an explicit event-loop step
  relation interleaves them with timer firings.
-/

/-! ## Small string helpers (model of JavaScript `String.prototype.includes`) -/

/-- `leadMatch sub hay` is true when `sub` is an initial segment of `hay`. -/
def leadMatch : List Char → List Char → Bool
  | [], _ => true
  | _ :: _, [] => false
  | a :: as, b :: bs => a == b && leadMatch as bs

/-- `occursIn sub hay` is true when `sub` occurs contiguously in `hay`. -/
def occursIn (sub : List Char) : List Char → Bool
  | [] => leadMatch sub []
  | b :: bs => leadMatch sub (b :: bs) || occursIn sub bs

/-- Model of JavaScript `s.includes(sub)`. -/
def strIncludes (s sub : String) : Bool :=
  occursIn sub.data s.data

/-- Last element of a character list, used to compare file-name endings. -/
def lastOf : List Char → Option Char
  | [] => none
  | [c] => some c
  | _ :: c :: cs => lastOf (c :: cs)

theorem lastOf_append (l r : List Char) (h : r ≠ []) :
    lastOf (l ++ r) = lastOf r := by
  induction l with
  | nil => rfl
  | cons x xs ih =>
    rw [List.cons_append]
    cases hxr : xs ++ r with
    | nil =>
      rcases List.append_eq_nil.mp hxr with ⟨_, h2⟩
      exact absurd h2 h
    | cons y ys =>
      have : lastOf (x :: y :: ys) = lastOf (y :: ys) := rfl
      rw [this, ← hxr, ih]

theorem String.data_append_eq (a b : String) : (a ++ b).data = a.data ++ b.data := rfl

/-! ## Process Bridge (`src/cli.ts`) -/

/-- Model of the `vscode.ExtensionContext` fields consulted by
`getBundledCliPath` (line 35): `context?.extensionPath` and
`context?.extensionUri?.fsPath`. -/
structure Ctx where
  extensionPath : Option String
  extensionUriFsPath : Option String
deriving DecidableEq, Repr

/-- `context?.extensionPath ?? context?.extensionUri?.fsPath` (line 35):
the `??` operator takes the right operand only when the left is
null/undefined. -/
def extRootOf (c : Ctx) : Option String :=
  match c.extensionPath with
  | some p => some p
  | none => c.extensionUriFsPath

/-- Model of `path.join` for the argument lists used in `cli.ts`
(plain components, joined by the separator). -/
def pathJoin : List String → String
  | [] => ""
  | [p] => p
  | p :: ps => p ++ "/" ++ pathJoin ps

/-- `getBundledCliPath` (cli.ts lines 34-54), after resolution of the
extension root: branch on `process.platform` (then `process.arch` for the
linux default). -/
def getBundledCliPath (extRoot platform arch : String) : String :=
  if platform = "darwin" then
    pathJoin [extRoot, "res", "bin", "darwin-universal", "costa"]
  else if platform = "win32" then
    pathJoin [extRoot, "res", "bin", "win32-x64", "costa.exe"]
  else if arch = "arm64" then
    pathJoin [extRoot, "res", "bin", "linux-arm64", "costa"]
  else
    pathJoin [extRoot, "res", "bin", "linux-x64", "costa"]

/-- The errors `run` can reject with, one constructor per distinct throw
site in cli.ts; `generic` is the catch-all rejection of line 93 that
embeds `String(err)` and stderr. -/
inductive RunError
  | ctxNotInit
  | extRootMissing
  | cliNotFound
  | generic (msg : String)
deriving DecidableEq, Repr

/-- The message text carried by each error (the literal strings of
cli.ts lines 58, 37, 90 and the built message of line 93). -/
def RunError.message : RunError → String
  | .ctxNotInit => "CLI context not initialized. Call setContext() first."
  | .extRootMissing => "extension root path not available"
  | .cliNotFound => "Costa CLI not found. Please reinstall the extension or install costa CLI manually."
  | .generic m => m

/-- Captured output of one invocation (`{ stdout, stderr }`). -/
structure BridgeResult where
  stdout : String
  stderr : String
deriving DecidableEq, Repr

/-- Behaviour of the spawned child process, the oracle for one
`execFile` call: whether the spawn itself fails (with an OS error code
such as "ENOENT"), how long the process runs, its exit code and its
output. -/
structure ProcBeh where
  spawnErrCode : Option String
  runtimeMs : Nat
  exitCode : Nat
  stdout : String
  stderr : String
deriving DecidableEq, Repr

/-- The error object `execFile` hands to its callback: its `message`
and whether the child was killed (by the timeout). -/
structure ExecErr where
  message : String
  killed : Bool
deriving DecidableEq, Repr

/-- Model of `node:child_process` `execFile(bin, args, { timeout })`
semantics: a failed spawn yields an ENOENT-style error; a process that
outlives the timeout is killed (`killed = true`) and the call errors; a
non-zero exit errors; otherwise the output is returned.  Node uses the
message "spawn <bin> <code>" for spawn failures and
"Command failed: <bin>" for killed/non-zero-exit children. -/
def execFileSem (bin : String) (timeoutMs : Nat) (b : ProcBeh) :
    Option ExecErr × String × String :=
  match b.spawnErrCode with
  | some code => (some ⟨"spawn " ++ bin ++ " " ++ code, false⟩, "", "")
  | none =>
    if timeoutMs < b.runtimeMs then
      (some ⟨"Command failed: " ++ bin, true⟩, b.stdout, b.stderr)
    else if b.exitCode ≠ 0 then
      (some ⟨"Command failed: " ++ bin, false⟩, b.stdout, b.stderr)
    else
      (none, b.stdout, b.stderr)

/-- JavaScript `String(err)` on an `Error` object. -/
def errToString (e : ExecErr) : String := "Error: " ++ e.message

def isWS (c : Char) : Bool := c == ' ' || c == '\n' || c == '\t' || c == '\r'

/-- Model of JavaScript `String.prototype.trim`: strip leading and
trailing whitespace. -/
def jsTrim (s : String) : String :=
  String.mk (((s.data.dropWhile isWS).reverse.dropWhile isWS).reverse)

/-- The timeout option passed to `execFile` on line 86: `{ timeout: 15_000 }`. -/
def runTimeoutMs : Nat := 15000

/-- The `execFile` callback of cli.ts lines 86-97: on error, reject with
the distinct not-found error when the message mentions ENOENT and the
PATH fallback name was used, else reject generically with
`String(err)` plus trimmed stderr; on success resolve the output. -/
def runCallback (binToUse : String) (er : Option ExecErr) (stdout stderr : String) :
    Except RunError BridgeResult :=
  match er with
  | none => .ok ⟨stdout, stderr⟩
  | some e =>
    let msg := jsTrim stderr
    if strIncludes e.message "ENOENT" && binToUse == "costa" then
      .error .cliNotFound
    else
      .error (.generic (if msg ≠ "" then errToString e ++ "\n" ++ msg else errToString e))

/-- Binary selection of cli.ts lines 62-83: use the bundled binary when
`existsSync` reports it present, otherwise fall back to the unqualified
name "costa" resolved via PATH. -/
def selectBin (bundled : String) (fsExists : Bool) : String :=
  if fsExists then bundled else "costa"

instance {ε α : Type} [DecidableEq ε] [DecidableEq α] : DecidableEq (Except ε α) :=
  fun x y =>
    match x, y with
    | .ok a, .ok b =>
      if h : a = b then isTrue (by rw [h]) else isFalse (by simp [h])
    | .error a, .error b =>
      if h : a = b then isTrue (by rw [h]) else isFalse (by simp [h])
    | .ok _, .error _ => isFalse (by simp)
    | .error _, .ok _ => isFalse (by simp)

/-- Result of one `run` call plus whether `execFile` was reached (a
subprocess spawn was attempted). -/
structure RunOut where
  result : Except RunError BridgeResult
  spawned : Bool
deriving DecidableEq, Repr

/-- `run(args)` (cli.ts lines 56-99).  `st` is the module-level
`extensionContext`; `fsExists` is the oracle for
`existsSync(bundledBin)`; `beh` the child-process behaviour; the chmod
of lines 70-77 is side-effect-only and swallowed, so it does not appear.
`args` is carried for faithfulness but only influences the outcome
through `beh`. -/
def run (st : Option Ctx) (args : List String) (platform arch : String)
    (fsExists : Bool) (beh : ProcBeh) : RunOut :=
  match st with
  | none => ⟨.error .ctxNotInit, false⟩
  | some ctx =>
    match extRootOf ctx with
    | none => ⟨.error .extRootMissing, false⟩
    | some root =>
      if root = "" then ⟨.error .extRootMissing, false⟩
      else
        let bundled := getBundledCliPath root platform arch
        let binToUse := selectBin bundled fsExists
        let out := execFileSem binToUse runTimeoutMs beh
        ⟨runCallback binToUse out.1 out.2.1 out.2.2, true⟩

/-- `setContext` (cli.ts lines 30-32): installs the module context. -/
def setContext (c : Ctx) : Option Ctx := some c

/-! ### Typed facades (cli.ts lines 101-149) -/

/-- Value that a JSON numeric-or-string field may carry; the sentinel
strings such as "∞" are preserved verbatim. -/
inductive NumOrStr
  | num (n : Int)
  | str (s : String)
deriving DecidableEq, Repr

/-- `StatusResult` (cli.ts lines 16-20). -/
structure StatusResult where
  logged_in : Bool
  points : Option NumOrStr
  total_points : Option NumOrStr
deriving DecidableEq, Repr

/-- `LoginResult` (cli.ts lines 8-14); only the fields the claims touch. -/
structure LoginResult where
  auth_url : Option String
  message : Option String
  timeout_seconds : Option Nat
deriving DecidableEq, Repr

/-- `TokenResult` (cli.ts lines 22-26). -/
structure TokenResult where
  access_token : Option String
  expires_at : Option Nat
  token_type : Option String
deriving DecidableEq, Repr

/-- Errors visible to facade callers: a propagated bridge error, or a
`JSON.parse` failure. -/
inductive CliError
  | bridge (e : RunError)
  | malformed
deriving DecidableEq, Repr

/-- Common shape of the `login`/`status`/`token` facades: call `run`,
parse stdout as JSON (`parse` is the oracle for `JSON.parse` at the
result type), propagate every error unchanged (each facade's
`catch` block logs and rethrows). -/
def facade {α : Type} (parse : String → Option α) (st : Option Ctx)
    (args : List String) (platform arch : String) (fsExists : Bool)
    (beh : ProcBeh) : Except CliError α × Bool :=
  let r := run st args platform arch fsExists beh
  match r.result with
  | .error e => (.error (.bridge e), r.spawned)
  | .ok br =>
    match parse br.stdout with
    | some v => (.ok v, r.spawned)
    | none => (.error .malformed, r.spawned)

def loginArgs : List String := ["login", "--format", "json"]

def statusArgs : List String := ["status", "--format", "json"]

def tokenArgs : List String := ["token", "--format", "json"]

def logoutArgs : List String := ["logout"]

/-- `cli.login()` (lines 101-112). -/
def login (parse : String → Option LoginResult) (st : Option Ctx)
    (platform arch : String) (fsExists : Bool) (beh : ProcBeh) :
    Except CliError LoginResult × Bool :=
  facade parse st loginArgs platform arch fsExists beh

/-- `cli.status()` (lines 114-125). -/
def status (parse : String → Option StatusResult) (st : Option Ctx)
    (platform arch : String) (fsExists : Bool) (beh : ProcBeh) :
    Except CliError StatusResult × Bool :=
  facade parse st statusArgs platform arch fsExists beh

/-- `cli.token()` (lines 127-138). -/
def token (parse : String → Option TokenResult) (st : Option Ctx)
    (platform arch : String) (fsExists : Bool) (beh : ProcBeh) :
    Except CliError TokenResult × Bool :=
  facade parse st tokenArgs platform arch fsExists beh

/-- `cli.logout()` (lines 140-149): output discarded, errors propagated. -/
def logout (st : Option Ctx) (platform arch : String) (fsExists : Bool)
    (beh : ProcBeh) : Except CliError Unit × Bool :=
  let r := run st logoutArgs platform arch fsExists beh
  match r.result with
  | .error e => (.error (.bridge e), r.spawned)
  | .ok _ => (.ok (), r.spawned)

/-! ## Usage snapshot construction (`usageStream.ts` lines 59-86) -/

/-- `UsageData` (usageStream.ts lines 5-9).  Fields are `Option` so the
JavaScript `!== undefined` comparison of line 78 is expressible; the
construction of lines 69-73 always fills them. -/
structure UsageData where
  points : Option NumOrStr
  total_points : Option NumOrStr
  context_length : Option NumOrStr
deriving DecidableEq, Repr

/-- Lines 69-73: map the CLI status to `UsageData`, defaulting missing
`points`/`total_points` to 0 and using the placeholder "-" for
`context_length`. -/
def mkUsageData (r : StatusResult) : UsageData :=
  { points := some (r.points.getD (.num 0))
  , total_points := some (r.total_points.getD (.num 0))
  , context_length := some (.str "-") }

/-- The emission guard of line 78:
`data.points !== undefined || data.total_points !== undefined || data.context_length !== undefined`. -/
def emitGuard (d : UsageData) : Bool :=
  d.points.isSome || d.total_points.isSome || d.context_length.isSome

/-- The "usage" events emitted by one successful `cli.status()` round
trip inside `fetchUsageData` (lines 63-80): nothing when not logged in,
otherwise the mapped snapshot when the guard passes. -/
def fetchEmits (r : StatusResult) : List UsageData :=
  if !r.logged_in then []
  else if emitGuard (mkUsageData r) then [mkUsageData r] else []

/-- Outcome of the awaited `cli.status()` call inside `fetchUsageData`:
either a parsed result or a rejection. -/
inductive FetchO
  | ok (r : StatusResult)
  | err
deriving DecidableEq, Repr

/-- `fetchUsageData` summarised as a function of the `status` outcome
(lines 59-86): a rejection is re-thrown (line 84), a result yields the
emitted events and a normal return. -/
def fetchUsageData : FetchO → Except Unit (List UsageData)
  | .ok r => .ok (fetchEmits r)
  | .err => .error ()

/-! ## UsageStream timer state machine (`usageStream.ts` lines 11-113)

The event loop is explicit: timers live in a heap (`List Timer`), the
in-flight `fetchUsageData` promises in a FIFO (`pending`), and a
schedule (`List Step`) drives external calls, timer firings and promise
resolutions.  `connect` is split at its `await this.fetchUsageData()`:
`connect` below is the synchronous prefix, and the `fromConnect` case of
`resolveFetch` is the continuation (then/catch/finally). -/

/-- Which callback a timer runs: the 3s `setInterval` of `setupPolling`
or the 5s `setTimeout` of `scheduleReconnect`. -/
inductive TKind
  | poll
  | reconnect
deriving DecidableEq, Repr

/-- An active entry of the runtime timer heap: its handle, absolute due
time (virtual ms), repeat period (`some` for `setInterval`) and kind. -/
structure Timer where
  id : Nat
  fireAt : Nat
  period : Option Nat
  kind : TKind
deriving DecidableEq, Repr

/-- Where an in-flight `fetchUsageData` call was started: awaited inside
`connect` (line 29), or fired from the poll interval callback (line 52). -/
inductive FetchCtx
  | fromConnect
  | fromPoll
deriving DecidableEq, Repr

/-- Observable events, timestamped: a `cli.status()` bridge invocation
(the start of a `fetchUsageData` call), a "usage" emission, and the
`disconnect()` call itself (kept in the trace so "after disconnect" is a
property of the trace). -/
inductive Ev
  | bridgeCall (t : Nat)
  | usage (t : Nat) (d : UsageData)
  | disconnected (t : Nat)
deriving DecidableEq, Repr

/-- State of one `UsageStream` instance plus its slice of the event
loop: the class fields `pollInterval`, `reconnectTimeout`,
`isConnecting` (lines 12-14), the timer heap, the in-flight fetches and
the trace. -/
structure SS where
  now : Nat
  nextId : Nat
  timers : List Timer
  pollInterval : Option Nat
  reconnectTimeout : Option Nat
  isConnecting : Bool
  pending : List FetchCtx
  trace : List Ev
deriving DecidableEq, Repr

/-- `clearTimeout`/`clearInterval` on a handle: drop it from the heap. -/
def clearT (h : Nat) (ts : List Timer) : List Timer :=
  ts.filter (fun t => t.id ≠ h)

/-- Calling `this.fetchUsageData()` from context `c`: the `cli.status()`
subprocess is invoked at once (a bridge call now) and the continuation
is queued. -/
def startFetch (c : FetchCtx) (s : SS) : SS :=
  { s with pending := s.pending ++ [c]
         , trace := s.trace ++ [.bridgeCall s.now] }

/-- `connect()` up to its first await (lines 20-29): the reentrancy
guard, then `isConnecting := true` and the awaited `fetchUsageData`. -/
def connect (s : SS) : SS :=
  if s.isConnecting then s
  else startFetch .fromConnect { s with isConnecting := true }

/-- `setupPolling` (lines 43-57): clear any existing interval, then arm
a fresh 3000 ms `setInterval` and store its handle. -/
def setupPolling (s : SS) : SS :=
  let ts :=
    match s.pollInterval with
    | some h => clearT h s.timers
    | none => s.timers
  { s with timers := ts ++ [⟨s.nextId, s.now + 3000, some 3000, .poll⟩]
         , pollInterval := some s.nextId
         , nextId := s.nextId + 1 }

/-- `scheduleReconnect` (lines 102-112): clear any pending reconnect
timeout, then arm a fresh 5000 ms `setTimeout` and store its handle
(the callback calls `connect`). -/
def scheduleReconnect (s : SS) : SS :=
  let ts :=
    match s.reconnectTimeout with
    | some h => clearT h s.timers
    | none => s.timers
  { s with timers := ts ++ [⟨s.nextId, s.now + 5000, none, .reconnect⟩]
         , reconnectTimeout := some s.nextId
         , nextId := s.nextId + 1 }

/-- `disconnect()` (lines 88-100): clear the reconnect timeout, then the
poll interval, nulling both fields; recorded in the trace. -/
def disconnect (s : SS) : SS :=
  let ts1 :=
    match s.reconnectTimeout with
    | some h => clearT h s.timers
    | none => s.timers
  let ts2 :=
    match s.pollInterval with
    | some h => clearT h ts1
    | none => ts1
  { s with timers := ts2
         , reconnectTimeout := none
         , pollInterval := none
         , trace := s.trace ++ [.disconnected s.now] }

/-- Settlement of the oldest in-flight `fetchUsageData` promise with
outcome `o`.  For a fetch awaited by `connect` this runs the rest of
`connect` (lines 29-40): on success emit then `setupPolling`, on
rejection `scheduleReconnect`, and in both cases the `finally` clears
`isConnecting`.  For a poll-tick fetch (lines 51-56) a rejection runs
the `.catch` which calls `scheduleReconnect`. -/
def resolveFetch (o : FetchO) (s : SS) : SS :=
  match s.pending with
  | [] => s
  | c :: rest =>
    let s1 := { s with pending := rest }
    match fetchUsageData o with
    | .ok emits =>
      let s2 := { s1 with trace := s1.trace ++ emits.map (fun d => Ev.usage s1.now d) }
      match c with
      | .fromConnect => { setupPolling s2 with isConnecting := false }
      | .fromPoll => s2
    | .error _ =>
      match c with
      | .fromConnect => { scheduleReconnect s1 with isConnecting := false }
      | .fromPoll => scheduleReconnect s1

/-- Strict priority order on heap entries: earlier due time first, ties
broken by creation order (smaller handle), matching the runtime. -/
def timerLt (a b : Timer) : Bool :=
  a.fireAt < b.fireAt || (a.fireAt == b.fireAt && a.id < b.id)

/-- The next timer the event loop would run. -/
def earliest? : List Timer → Option Timer
  | [] => none
  | t :: rest =>
    match earliest? rest with
    | none => some t
    | some u => if timerLt u t then some u else some t

/-- Advance virtual time to the next timer and run its callback: a poll
tick starts a `fetchUsageData` (line 52), a reconnect fires `connect`
(line 110).  Interval timers re-arm at `fireAt + period`; one-shot
timers leave the heap. -/
def fireNext (s : SS) : SS :=
  match earliest? s.timers with
  | none => s
  | some t =>
    let s0 := { s with now := t.fireAt }
    let s1 :=
      match t.period with
      | some p =>
        { s0 with timers :=
            s0.timers.map (fun u => if u.id = t.id then { u with fireAt := t.fireAt + p } else u) }
      | none => { s0 with timers := clearT t.id s0.timers }
    match t.kind with
    | .poll => startFetch .fromPoll s1
    | .reconnect => connect s1

/-- One event-loop step: an external `connect()`/`disconnect()` call, a
timer firing, or settlement of the oldest in-flight fetch. -/
inductive Step
  | connect
  | disconnect
  | fire
  | resolve (o : FetchO)
deriving DecidableEq, Repr

def step (s : SS) : Step → SS
  | .connect => connect s
  | .disconnect => disconnect s
  | .fire => fireNext s
  | .resolve o => resolveFetch o s

def runSteps (s : SS) : List Step → SS
  | [] => s
  | k :: ks => runSteps (step s k) ks

/-- A freshly constructed `UsageStream` (lines 11-18). -/
def init : SS :=
  { now := 0, nextId := 0, timers := [], pollInterval := none
  , reconnectTimeout := none, isConnecting := false, pending := [], trace := [] }

/-! ### Timer-heap invariant: every active timer is tracked by its class
field, handles are fresh and distinct. -/

/-- The active timers of one kind. -/
def kindFilter (k : TKind) (ts : List Timer) : List Timer :=
  ts.filter (fun t => t.kind == k)

def idsBelow (s : SS) : Prop := ∀ t ∈ s.timers, t.id < s.nextId

def idsNodup (s : SS) : Prop := (s.timers.map Timer.id).Nodup

def trackedAll (s : SS) : Prop :=
  ∀ t ∈ s.timers,
    (t.kind = TKind.poll → s.pollInterval = some t.id) ∧
    (t.kind = TKind.reconnect → s.reconnectTimeout = some t.id)

def SSInv (s : SS) : Prop := idsBelow s ∧ idsNodup s ∧ trackedAll s

theorem mem_clearT {t : Timer} {h : Nat} {ts : List Timer}
    (ht : t ∈ clearT h ts) : t ∈ ts ∧ t.id ≠ h := by
  unfold clearT at ht
  have := List.mem_filter.mp ht
  exact ⟨this.1, by simpa using this.2⟩

theorem clearT_sublist (h : Nat) (ts : List Timer) : (clearT h ts).Sublist ts :=
  List.filter_sublist ts

theorem noPoll_clearT {s : SS} {h : Nat} (htr : trackedAll s)
    (hp : s.pollInterval = some h) :
    ∀ t ∈ clearT h s.timers, t.kind ≠ TKind.poll := by
  intro t ht hk
  rcases mem_clearT ht with ⟨hmem, hid⟩
  have := ((htr t hmem).1 hk)
  rw [hp] at this
  exact hid (Option.some.inj this).symm

theorem noPoll_none {s : SS} (htr : trackedAll s) (hp : s.pollInterval = none) :
    ∀ t ∈ s.timers, t.kind ≠ TKind.poll := by
  intro t ht hk
  have := (htr t ht).1 hk
  rw [hp] at this
  exact Option.noConfusion this

theorem noRecon_clearT {s : SS} {h : Nat} (htr : trackedAll s)
    (hp : s.reconnectTimeout = some h) :
    ∀ t ∈ clearT h s.timers, t.kind ≠ TKind.reconnect := by
  intro t ht hk
  rcases mem_clearT ht with ⟨hmem, hid⟩
  have := ((htr t hmem).2 hk)
  rw [hp] at this
  exact hid (Option.some.inj this).symm

theorem noRecon_none {s : SS} (htr : trackedAll s) (hp : s.reconnectTimeout = none) :
    ∀ t ∈ s.timers, t.kind ≠ TKind.reconnect := by
  intro t ht hk
  have := (htr t ht).2 hk
  rw [hp] at this
  exact Option.noConfusion this

theorem kindFilter_eq_nil {k : TKind} {ts : List Timer}
    (h : ∀ t ∈ ts, t.kind ≠ k) : kindFilter k ts = [] := by
  unfold kindFilter
  rw [List.filter_eq_nil_iff]
  intro t ht
  simpa using h t ht

theorem inv_startFetch {s : SS} (c : FetchCtx) (h : SSInv s) : SSInv (startFetch c s) := h

theorem inv_connect {s : SS} (h : SSInv s) : SSInv (connect s) := by
  unfold connect
  split
  · exact h
  · exact h

theorem inv_arm_poll {s : SS} (hb : idsBelow s) (htr : trackedAll s)
    (base : List Timer)
    (hsub : ∀ t ∈ base, t ∈ s.timers) (hbn : (base.map Timer.id).Nodup)
    (hnp : ∀ t ∈ base, t.kind ≠ TKind.poll) :
    SSInv { s with
      timers := base ++ [⟨s.nextId, s.now + 3000, some 3000, TKind.poll⟩],
      pollInterval := some s.nextId,
      nextId := s.nextId + 1 } := by
  refine ⟨?_, ?_, ?_⟩
  · intro t ht
    rcases List.mem_append.mp ht with h1 | h1
    · exact Nat.lt_succ_of_lt (hb t (hsub t h1))
    · rw [List.mem_singleton.mp h1]
      exact Nat.lt_succ_self _
  · show ((base ++ _).map Timer.id).Nodup
    rw [List.map_append, List.nodup_append]
    refine ⟨hbn, List.nodup_singleton _, ?_⟩
    intro a ha hb2
    simp only [List.map_cons, List.map_nil, List.mem_singleton] at hb2
    rcases List.mem_map.mp ha with ⟨t, htm, hts2⟩
    have := hb t (hsub t htm)
    omega
  · intro t ht
    rcases List.mem_append.mp ht with h1 | h1
    · refine ⟨fun hk => absurd hk (hnp t h1), fun hk => (htr t (hsub t h1)).2 hk⟩
    · rw [List.mem_singleton.mp h1]
      exact ⟨fun _ => rfl, fun hk => absurd hk (by simp)⟩

theorem inv_arm_recon {s : SS} (hb : idsBelow s) (htr : trackedAll s)
    (base : List Timer)
    (hsub : ∀ t ∈ base, t ∈ s.timers) (hbn : (base.map Timer.id).Nodup)
    (hnp : ∀ t ∈ base, t.kind ≠ TKind.reconnect) :
    SSInv { s with
      timers := base ++ [⟨s.nextId, s.now + 5000, none, TKind.reconnect⟩],
      reconnectTimeout := some s.nextId,
      nextId := s.nextId + 1 } := by
  refine ⟨?_, ?_, ?_⟩
  · intro t ht
    rcases List.mem_append.mp ht with h1 | h1
    · exact Nat.lt_succ_of_lt (hb t (hsub t h1))
    · rw [List.mem_singleton.mp h1]
      exact Nat.lt_succ_self _
  · show ((base ++ _).map Timer.id).Nodup
    rw [List.map_append, List.nodup_append]
    refine ⟨hbn, List.nodup_singleton _, ?_⟩
    intro a ha hb2
    simp only [List.map_cons, List.map_nil, List.mem_singleton] at hb2
    rcases List.mem_map.mp ha with ⟨t, htm, hts2⟩
    have := hb t (hsub t htm)
    omega
  · intro t ht
    rcases List.mem_append.mp ht with h1 | h1
    · refine ⟨fun hk => (htr t (hsub t h1)).1 hk, fun hk => absurd hk (hnp t h1)⟩
    · rw [List.mem_singleton.mp h1]
      exact ⟨fun hk => absurd hk (by simp), fun _ => rfl⟩

theorem inv_setupPolling {s : SS} (h : SSInv s) : SSInv (setupPolling s) := by
  obtain ⟨hb, hn, htr⟩ := h
  cases hp : s.pollInterval with
  | none =>
    have := inv_arm_poll hb htr s.timers (fun t ht => ht) hn (noPoll_none htr hp)
    simp only [setupPolling, hp]
    exact this
  | some hh =>
    have := inv_arm_poll hb htr (clearT hh s.timers) (fun t ht => (mem_clearT ht).1)
      (((clearT_sublist hh s.timers).map Timer.id).nodup hn) (noPoll_clearT htr hp)
    simp only [setupPolling, hp]
    exact this

theorem inv_scheduleReconnect {s : SS} (h : SSInv s) : SSInv (scheduleReconnect s) := by
  obtain ⟨hb, hn, htr⟩ := h
  cases hp : s.reconnectTimeout with
  | none =>
    have := inv_arm_recon hb htr s.timers (fun t ht => ht) hn (noRecon_none htr hp)
    simp only [scheduleReconnect, hp]
    exact this
  | some hh =>
    have := inv_arm_recon hb htr (clearT hh s.timers) (fun t ht => (mem_clearT ht).1)
      (((clearT_sublist hh s.timers).map Timer.id).nodup hn) (noRecon_clearT htr hp)
    simp only [scheduleReconnect, hp]
    exact this

/-- Under the invariant, `disconnect()` empties the timer heap: both
fields are cleared and every active timer was tracked by one of them. -/
theorem disconnect_timers_nil {s : SS} (h : SSInv s) : (disconnect s).timers = [] := by
  obtain ⟨hb, hn, htr⟩ := h
  rw [List.eq_nil_iff_forall_not_mem]
  intro t ht
  have hkind : t.kind = TKind.poll ∨ t.kind = TKind.reconnect := by
    cases t.kind
    · exact Or.inl rfl
    · exact Or.inr rfl
  cases hr : s.reconnectTimeout with
  | none =>
    cases hp : s.pollInterval with
    | none =>
      simp only [disconnect, hr, hp] at ht
      rcases hkind with hk | hk
      · have := (htr t ht).1 hk
        rw [hp] at this
        exact Option.noConfusion this
      · have := (htr t ht).2 hk
        rw [hr] at this
        exact Option.noConfusion this
    | some hh2 =>
      simp only [disconnect, hr, hp] at ht
      rcases mem_clearT ht with ⟨hmem, hid⟩
      rcases hkind with hk | hk
      · have := (htr t hmem).1 hk
        rw [hp] at this
        exact hid (Option.some.inj this).symm
      · have := (htr t hmem).2 hk
        rw [hr] at this
        exact Option.noConfusion this
  | some hh =>
    cases hp : s.pollInterval with
    | none =>
      simp only [disconnect, hr, hp] at ht
      rcases mem_clearT ht with ⟨hmem, hid⟩
      rcases hkind with hk | hk
      · have := (htr t hmem).1 hk
        rw [hp] at this
        exact Option.noConfusion this
      · have := (htr t hmem).2 hk
        rw [hr] at this
        exact hid (Option.some.inj this).symm
    | some hh2 =>
      simp only [disconnect, hr, hp] at ht
      rcases mem_clearT ht with ⟨ht1, hid2⟩
      rcases mem_clearT ht1 with ⟨hmem, hid1⟩
      rcases hkind with hk | hk
      · have := (htr t hmem).1 hk
        rw [hp] at this
        exact hid2 (Option.some.inj this).symm
      · have := (htr t hmem).2 hk
        rw [hr] at this
        exact hid1 (Option.some.inj this).symm

theorem inv_disconnect {s : SS} (h : SSInv s) : SSInv (disconnect s) := by
  have hnil := disconnect_timers_nil h
  refine ⟨?_, ?_, ?_⟩
  · intro t ht
    rw [hnil] at ht
    cases ht
  · show ((disconnect s).timers.map Timer.id).Nodup
    rw [hnil]
    exact List.nodup_nil
  · intro t ht
    rw [hnil] at ht
    cases ht

theorem inv_clear {s : SS} (hId : Nat) (h : SSInv s) :
    SSInv { s with timers := clearT hId s.timers } := by
  obtain ⟨hb, hn, htr⟩ := h
  refine ⟨?_, ?_, ?_⟩
  · intro t ht
    exact hb t (mem_clearT ht).1
  · show ((clearT hId s.timers).map Timer.id).Nodup
    exact ((clearT_sublist hId s.timers).map Timer.id).nodup hn
  · intro t ht
    exact htr t (mem_clearT ht).1

theorem map_comp_id_eq (g : Timer → Timer) (hgid : ∀ u, (g u).id = u.id) :
    ∀ ts : List Timer, (ts.map g).map Timer.id = ts.map Timer.id := by
  intro ts
  induction ts with
  | nil => rfl
  | cons a rest ih => simp [hgid, ih]

theorem inv_rearm {s : SS} (tid newAt : Nat) (h : SSInv s) :
    SSInv { s with
      timers := s.timers.map (fun u => if u.id = tid then { u with fireAt := newAt } else u) } := by
  obtain ⟨hb, hn, htr⟩ := h
  have hgid : ∀ u : Timer,
      (if u.id = tid then { u with fireAt := newAt } else u).id = u.id := by
    intro u
    by_cases hu : u.id = tid <;> simp [hu]
  have hgkind : ∀ u : Timer,
      (if u.id = tid then { u with fireAt := newAt } else u).kind = u.kind := by
    intro u
    by_cases hu : u.id = tid <;> simp [hu]
  refine ⟨?_, ?_, ?_⟩
  · intro v hv
    rcases List.mem_map.mp hv with ⟨u, hu, hvu⟩
    rw [← hvu, hgid]
    exact hb u hu
  · show ((s.timers.map _).map Timer.id).Nodup
    rw [map_comp_id_eq _ hgid]
    exact hn
  · intro v hv
    rcases List.mem_map.mp hv with ⟨u, hu, hvu⟩
    rw [← hvu]
    constructor
    · intro hk
      rw [hgkind] at hk
      rw [hgid]
      exact (htr u hu).1 hk
    · intro hk
      rw [hgkind] at hk
      rw [hgid]
      exact (htr u hu).2 hk

theorem earliest?_mem {ts : List Timer} {t : Timer} (h : earliest? ts = some t) :
    t ∈ ts := by
  induction ts with
  | nil => cases h
  | cons a rest ih =>
    cases he : earliest? rest with
    | none =>
      simp only [earliest?, he] at h
      rw [← Option.some.inj h]
      exact List.mem_cons_self a rest
    | some u =>
      simp only [earliest?, he] at h
      by_cases hlt : timerLt u a
      · rw [if_pos hlt] at h
        exact List.mem_cons_of_mem a (ih (by rw [he, Option.some.inj h]))
      · rw [if_neg hlt] at h
        rw [← Option.some.inj h]
        exact List.mem_cons_self a rest

theorem inv_resolveFetch {s : SS} (o : FetchO) (h : SSInv s) :
    SSInv (resolveFetch o s) := by
  cases hp : s.pending with
  | nil =>
    simp only [resolveFetch, hp]
    exact h
  | cons c rest =>
    cases o with
    | ok r =>
      cases c with
      | fromConnect =>
        simp only [resolveFetch, hp, fetchUsageData]
        exact inv_setupPolling h
      | fromPoll =>
        simp only [resolveFetch, hp, fetchUsageData]
        exact h
    | err =>
      cases c with
      | fromConnect =>
        simp only [resolveFetch, hp, fetchUsageData]
        exact inv_scheduleReconnect h
      | fromPoll =>
        simp only [resolveFetch, hp, fetchUsageData]
        exact inv_scheduleReconnect h

theorem inv_fireNext {s : SS} (h : SSInv s) : SSInv (fireNext s) := by
  cases he : earliest? s.timers with
  | none =>
    simp only [fireNext, he]
    exact h
  | some t =>
    cases hper : t.period with
    | some p =>
      cases hk : t.kind with
      | poll =>
        simp only [fireNext, he, hper, hk]
        exact inv_startFetch _ (inv_rearm t.id (t.fireAt + p) h)
      | reconnect =>
        simp only [fireNext, he, hper, hk]
        exact inv_connect (inv_rearm t.id (t.fireAt + p) h)
    | none =>
      cases hk : t.kind with
      | poll =>
        simp only [fireNext, he, hper, hk]
        exact inv_startFetch _ (inv_clear t.id h)
      | reconnect =>
        simp only [fireNext, he, hper, hk]
        exact inv_connect (inv_clear t.id h)

theorem inv_step {s : SS} (k : Step) (h : SSInv s) : SSInv (step s k) := by
  cases k with
  | connect => exact inv_connect h
  | disconnect => exact inv_disconnect h
  | fire => exact inv_fireNext h
  | resolve o => exact inv_resolveFetch o h

theorem inv_runSteps {s : SS} (ks : List Step) (h : SSInv s) :
    SSInv (runSteps s ks) := by
  induction ks generalizing s with
  | nil => exact h
  | cons k ks ih => exact ih (inv_step k h)

theorem inv_init : SSInv init :=
  ⟨fun t ht => absurd ht (List.not_mem_nil t), List.nodup_nil,
   fun t ht => absurd ht (List.not_mem_nil t)⟩

theorem length_le_one_of_same_id (l : List Timer) (hn : (l.map Timer.id).Nodup)
    (h : ∀ a ∈ l, ∀ b ∈ l, a.id = b.id) : l.length ≤ 1 := by
  cases l with
  | nil => simp
  | cons x rest =>
    cases rest with
    | nil => simp
    | cons y rest2 =>
      exfalso
      have hxy := h x (List.mem_cons_self _ _) y (List.mem_cons_of_mem _ (List.mem_cons_self _ _))
      simp only [List.map_cons, List.nodup_cons] at hn
      exact hn.1 (by rw [hxy]; exact List.mem_cons_self _ _)

/-- At most one active timer of each kind, in any state satisfying the
invariant. -/
theorem kindCount_le_one {s : SS} (h : SSInv s) (k : TKind) :
    (kindFilter k s.timers).length ≤ 1 := by
  obtain ⟨hb, hn, htr⟩ := h
  apply length_le_one_of_same_id
  · show (((s.timers.filter _).map Timer.id)).Nodup
    exact ((List.filter_sublist s.timers).map Timer.id).nodup hn
  · intro a ha b hb2
    have hafm := List.mem_filter.mp ha
    have hbfm := List.mem_filter.mp hb2
    have hak : a.kind = k := by simpa using hafm.2
    have hbk : b.kind = k := by simpa using hbfm.2
    cases k with
    | poll =>
      have h1 := (htr a hafm.1).1 hak
      have h2 := (htr b hbfm.1).1 hbk
      rw [h1] at h2
      exact Option.some.inj h2
    | reconnect =>
      have h1 := (htr a hafm.1).2 hak
      have h2 := (htr b hbfm.1).2 hbk
      rw [h1] at h2
      exact Option.some.inj h2

/-! ## Login Poller (`costa.login` handler, usageStream.ts lines 542-566)

The handler arms two timers at once: a 3000 ms `setInterval` whose
callback awaits `cli.status()` (success clears the interval, shows the
message and starts the usage stream; per-tick errors are swallowed), and
a one-shot `setTimeout` for `timeout_seconds * 1000` ms
(`loginResult.timeout_seconds ?? 600`) whose callback clears the
interval.  The handles are two local constants, so the state carries one
activity flag and due time per timer; each tick's `status()` call is
resolved within the tick (the local CLI call completes well before the
next 3 s tick).  `oracle k` is the outcome of the k-th `status()` call:
`none` when it throws, `some b` for a result with `logged_in = b`. -/

inductive LEv
  | statusCall (t : Nat)
  | success (t : Nat)
  | timeoutFired (t : Nat)
deriving DecidableEq, Repr

def isCall : LEv → Bool
  | .statusCall _ => true
  | _ => false

def isSucc : LEv → Bool
  | .success _ => true
  | _ => false

def isTO : LEv → Bool
  | .timeoutFired _ => true
  | _ => false

structure LS where
  now : Nat
  tick : Nat
  intervalActive : Bool
  intervalNext : Nat
  timeoutActive : Bool
  timeoutAt : Nat
  trace : List LEv
deriving DecidableEq, Repr

/-- The state right after lines 542-566 run: both timers armed, the
interval due first at 3000 ms, the timeout at `timeoutSeconds * 1000`. -/
def loginInit (timeoutSeconds : Nat) : LS :=
  { now := 0, tick := 0, intervalActive := true, intervalNext := 3000
  , timeoutActive := true, timeoutAt := timeoutSeconds * 1000, trace := [] }

/-- Fire the next due timer (creation order breaks ties, interval
first).  An interval tick performs one `status()` call; on
`logged_in = true` it clears the interval and signals success (lines
545-554); otherwise (false, or a caught per-tick error, lines 556-558)
it does nothing further.  The timeout callback (lines 563-566) clears
the interval. -/
def lfire (oracle : Nat → Option Bool) (s : LS) : LS :=
  if s.intervalActive && (!s.timeoutActive || s.intervalNext ≤ s.timeoutAt) then
    let t := s.intervalNext
    let s1 := { s with now := t, intervalNext := t + 3000, tick := s.tick + 1
                     , trace := s.trace ++ [.statusCall t] }
    match oracle s.tick with
    | some true => { s1 with intervalActive := false, trace := s1.trace ++ [.success t] }
    | _ => s1
  else if s.timeoutActive then
    { s with now := s.timeoutAt, timeoutActive := false, intervalActive := false
           , trace := s.trace ++ [.timeoutFired s.timeoutAt] }
  else s

def lrunAux (oracle : Nat → Option Bool) : Nat → LS → LS
  | 0, s => s
  | n + 1, s => lrunAux oracle n (lfire oracle s)

/-- A whole login-polling run: `tsOpt` is `loginResult.timeout_seconds`
(line 562 applies the `?? 600` default), `n` the number of event-loop
timer dispatches simulated. -/
def loginRun (oracle : Nat → Option Bool) (tsOpt : Option Nat) (n : Nat) : LS :=
  lrunAux oracle n (loginInit (tsOpt.getD 600))

/-- Trace sanity automaton: given flags recording whether a success or a
timeout event has already been seen, checks that status calls and the
(unique) success all precede the first success and the timeout firing,
and that nothing at all follows the timeout firing. -/
def traceOk (seenS seenTO : Bool) : List LEv → Bool
  | [] => true
  | e :: r =>
    (match e with
     | .statusCall _ => !seenS && !seenTO
     | .success _ => !seenS && !seenTO
     | .timeoutFired _ => !seenTO)
    && traceOk (seenS || isSucc e) (seenTO || isTO e) r

theorem traceOk_append (a b : Bool) (l m : List LEv) :
    traceOk a b (l ++ m) =
      (traceOk a b l && traceOk (a || l.any isSucc) (b || l.any isTO) m) := by
  induction l generalizing a b with
  | nil => simp [traceOk]
  | cons e r ih =>
    simp only [List.cons_append, traceOk, List.any_cons]
    have hR : r.append m = r ++ m := rfl
    rw [hR, ih]
    cases hce : (match e with
      | .statusCall _ => !a && !b
      | .success _ => !a && !b
      | .timeoutFired _ => !b) with
    | false => simp
    | true =>
      simp only [Bool.true_and]
      congr 1 <;> cases e <;> simp [isSucc, isTO, Bool.or_assoc, Bool.or_comm, Bool.or_left_comm]

/-- After a timeout event has been seen, a valid trace is over. -/
theorem traceOk_to_nil {l : List LEv} (a : Bool) (h : traceOk a true l = true) :
    l = [] := by
  cases l with
  | nil => rfl
  | cons e r =>
    exfalso
    cases e <;> simp [traceOk] at h

/-- After a success has been seen, a valid trace holds no further status
call and no further success. -/
theorem traceOk_after_succ {l : List LEv} (b : Bool) (h : traceOk true b l = true) :
    l.all (fun e => !isCall e && !isSucc e) = true := by
  induction l generalizing b with
  | nil => rfl
  | cons e r ih =>
    cases e with
    | statusCall t => simp [traceOk] at h
    | success t => simp [traceOk] at h
    | timeoutFired t =>
      cases b with
      | true => simp [traceOk] at h
      | false =>
        have h2 : traceOk true true r = true := by
          simpa [traceOk, isSucc, isTO] using h
        rw [traceOk_to_nil true h2]
        rfl

def LInv (s : LS) : Prop :=
  traceOk false false s.trace = true
  ∧ (s.trace.any isSucc = true → s.intervalActive = false)
  ∧ (s.trace.any isTO = true → s.intervalActive = false ∧ s.timeoutActive = false)

theorem linv_lfire (o : Nat → Option Bool) {s : LS} (h : LInv s) : LInv (lfire o s) := by
  obtain ⟨h1, h2, h3⟩ := h
  unfold lfire
  split
  case isTrue hc =>
    have hia : s.intervalActive = true := by
      have h4 := hc
      rw [Bool.and_eq_true] at h4
      exact h4.1
    have hnos : s.trace.any isSucc = false := by
      cases hs : s.trace.any isSucc with
      | false => rfl
      | true => rw [h2 hs] at hia; cases hia
    have hnoto : s.trace.any isTO = false := by
      cases hs : s.trace.any isTO with
      | false => rfl
      | true => rw [(h3 hs).1] at hia; cases hia
    cases ho : o s.tick with
    | none =>
      simp only [ho]
      refine ⟨?_, ?_, ?_⟩
      · simp [traceOk_append, h1, hnos, hnoto, traceOk, isSucc, isTO]
      · intro hsu
        simp [List.any_append, hnos, isSucc] at hsu
      · intro hto
        simp [List.any_append, hnoto, isTO] at hto
    | some b =>
      cases b with
      | false =>
        simp only [ho]
        refine ⟨?_, ?_, ?_⟩
        · simp [traceOk_append, h1, hnos, hnoto, traceOk, isSucc, isTO]
        · intro hsu
          simp [List.any_append, hnos, isSucc] at hsu
        · intro hto
          simp [List.any_append, hnoto, isTO] at hto
      | true =>
        simp only [ho]
        refine ⟨?_, fun _ => rfl, ?_⟩
        · simp [List.append_assoc, traceOk_append, h1, hnos, hnoto, traceOk, isSucc, isTO]
        · intro hto
          simp [List.any_append, hnoto, isTO] at hto
  case isFalse hc =>
    split
    case isTrue hto =>
      have hnoto : s.trace.any isTO = false := by
        cases hs : s.trace.any isTO with
        | false => rfl
        | true => rw [(h3 hs).2] at hto; cases hto
      refine ⟨?_, fun _ => rfl, fun _ => ⟨rfl, rfl⟩⟩
      simp [traceOk_append, h1, hnoto, traceOk, isTO]
    case isFalse => exact ⟨h1, h2, h3⟩

theorem linv_lrunAux (o : Nat → Option Bool) (n : Nat) {s : LS} (h : LInv s) :
    LInv (lrunAux o n s) := by
  induction n generalizing s with
  | zero => exact h
  | succ m ih => exact ih (linv_lfire o h)

theorem linv_loginInit (ts : Nat) : LInv (loginInit ts) := by
  refine ⟨rfl, ?_, ?_⟩
  · intro h
    exact Bool.noConfusion h
  · intro h
    exact Bool.noConfusion h

theorem linv_loginRun (o : Nat → Option Bool) (tsOpt : Option Nat) (n : Nat) :
    LInv (loginRun o tsOpt n) :=
  linv_lrunAux o n (linv_loginInit _)

/-- A status call occurring strictly after a success event. -/
def callAfterSucc : List LEv → Bool
  | [] => false
  | e :: r => if isSucc e then r.any isCall else callAfterSucc r

/-- Any event at all occurring strictly after the timeout has fired. -/
def evAfterTO : List LEv → Bool
  | [] => false
  | e :: r => if isTO e then !r.isEmpty else evAfterTO r

theorem any_eq_false_of_all_not {l : List LEv} {p q : LEv → Bool}
    (h : l.all (fun e => !p e && !q e) = true) : l.any p = false ∧ l.any q = false := by
  constructor
  · rw [List.any_eq_false]
    intro e he
    have := List.all_eq_true.mp h e he
    simp only [Bool.and_eq_true, Bool.not_eq_true'] at this
    simp [this.1]
  · rw [List.any_eq_false]
    intro e he
    have := List.all_eq_true.mp h e he
    simp only [Bool.and_eq_true, Bool.not_eq_true'] at this
    simp [this.2]

theorem traceOk_countSucc {l : List LEv} (b : Bool) (h : traceOk false b l = true) :
    l.countP isSucc ≤ 1 := by
  induction l generalizing b with
  | nil => simp
  | cons e r ih =>
    cases e with
    | statusCall t =>
      have h2 : b = false ∧ traceOk false b r = true := by
        simpa [traceOk, isSucc, isTO] using h
      simpa [List.countP_cons, isSucc] using ih b h2.2
    | success t =>
      cases b with
      | true => simp [traceOk] at h
      | false =>
        have h2 : traceOk true false r = true := by
          simpa [traceOk, isSucc, isTO] using h
        have hall := traceOk_after_succ false h2
        have hz : r.countP isSucc = 0 := by
          rw [List.countP_eq_zero]
          intro e he
          have := List.all_eq_true.mp hall e he
          simp only [Bool.and_eq_true, Bool.not_eq_true'] at this
          simp [this.2]
        simp [List.countP_cons, isSucc, hz]
    | timeoutFired t =>
      cases b with
      | true => simp [traceOk] at h
      | false =>
        have h2 : traceOk false true r = true := by
          simpa [traceOk, isSucc, isTO] using h
        rw [traceOk_to_nil false h2]
        simp [List.countP_cons, isSucc]

theorem traceOk_callAfterSucc {l : List LEv} (b : Bool) (h : traceOk false b l = true) :
    callAfterSucc l = false := by
  induction l generalizing b with
  | nil => rfl
  | cons e r ih =>
    cases e with
    | statusCall t =>
      have h2 : b = false ∧ traceOk false b r = true := by
        simpa [traceOk, isSucc, isTO] using h
      simpa [callAfterSucc, isSucc] using ih b h2.2
    | success t =>
      cases b with
      | true => simp [traceOk] at h
      | false =>
        have h2 : traceOk true false r = true := by
          simpa [traceOk, isSucc, isTO] using h
        have hall := traceOk_after_succ false h2
        have := (any_eq_false_of_all_not hall).1
        simpa [callAfterSucc, isSucc] using this
    | timeoutFired t =>
      cases b with
      | true => simp [traceOk] at h
      | false =>
        have h2 : traceOk false true r = true := by
          simpa [traceOk, isSucc, isTO] using h
        rw [traceOk_to_nil false h2]
        rfl

theorem traceOk_evAfterTO {l : List LEv} (a : Bool) (h : traceOk a false l = true) :
    evAfterTO l = false := by
  induction l generalizing a with
  | nil => rfl
  | cons e r ih =>
    cases e with
    | statusCall t =>
      have h2 : traceOk a false r = true := by
        cases a with
        | true => simp [traceOk] at h
        | false => simpa [traceOk, isSucc, isTO] using h
      simpa [evAfterTO, isTO] using ih a h2
    | success t =>
      cases a with
      | true => simp [traceOk] at h
      | false =>
        have h2 : traceOk true false r = true := by
          simpa [traceOk, isSucc, isTO] using h
        simpa [evAfterTO, isTO] using ih true h2
    | timeoutFired t =>
      have h2 : traceOk (a || false) true r = true := by
        cases a <;> simpa [traceOk, isSucc, isTO] using h
      rw [traceOk_to_nil _ h2]
      rfl

/-! ## Claims -/

def isBridgeEv : Ev → Bool
  | .bridgeCall _ => true
  | _ => false

def isDiscEv : Ev → Bool
  | .disconnected _ => true
  | _ => false

/-- True when a bridge invocation appears strictly after the (first)
disconnect event of the trace. -/
def bridgeAfterDisc (tr : List Ev) : Bool :=
  ((tr.dropWhile (fun e => !isDiscEv e)).drop 1).any isBridgeEv

theorem runSteps_fire_only {s : SS} (hnil : s.timers = []) (fs : List Step)
    (hfs : ∀ k ∈ fs, k = Step.fire) : runSteps s fs = s := by
  induction fs with
  | nil => rfl
  | cons k rest ih =>
    have hk : k = Step.fire := hfs k (List.mem_cons_self _ _)
    subst hk
    have hfix : fireNext s = s := by
      simp only [fireNext, hnil, earliest?]
    show runSteps (fireNext s) rest = s
    rw [hfix]
    exact ih (fun k2 hk2 => hfs k2 (List.mem_cons_of_mem _ hk2))

/-- Claim C3 (confirmed): a `connect()` entered while `isConnecting` is
set returns immediately and unchanged (no `fetchUsageData`); two
concurrent `connect()` calls from the idle initial state perform exactly
one bridge invocation and leave exactly one fetch in flight; and
settling the fetch awaited by `connect` clears the connecting flag on
every outcome (the `finally` of lines 38-40). -/
theorem C3_connect_reentrancy :
    (∀ s : SS, s.isConnecting = true → connect s = s)
    ∧ ((runSteps init [Step.connect, Step.connect]).trace.countP isBridgeEv = 1
       ∧ (runSteps init [Step.connect, Step.connect]).pending.length = 1)
    ∧ (∀ (s : SS) (o : FetchO) (rest : List FetchCtx),
        s.pending = FetchCtx.fromConnect :: rest →
        (resolveFetch o s).isConnecting = false) := by
  refine ⟨?_, by decide, ?_⟩
  · intro s h
    simp [connect, h]
  · intro s o rest hp
    cases o with
    | ok r =>
      simp only [resolveFetch, hp, fetchUsageData]
    | err =>
      simp only [resolveFetch, hp, fetchUsageData]

theorem C3_witness :
    ({ init with isConnecting := true } : SS).isConnecting = true
    ∧ connect { init with isConnecting := true } = { init with isConnecting := true }
    ∧ ({ init with pending := [FetchCtx.fromConnect] } : SS).pending
        = FetchCtx.fromConnect :: []
    ∧ (resolveFetch FetchO.err { init with pending := [FetchCtx.fromConnect] }).isConnecting
        = false :=
  ⟨rfl, C3_connect_reentrancy.1 _ rfl, rfl,
   C3_connect_reentrancy.2.2 _ FetchO.err [] rfl⟩

theorem kindFilter_append (k : TKind) (l m : List Timer) :
    kindFilter k (l ++ m) = kindFilter k l ++ kindFilter k m := by
  simp [kindFilter]

/-- The failing-twice scenario: connect, first fetch succeeds (polling
armed), a poll tick's fetch fails (reconnect scheduled for +5000), the
next poll tick's fetch fails again before the reconnect fires. -/
def twoFailSteps : List Step :=
  [Step.connect, Step.resolve (FetchO.ok ⟨true, none, none⟩), Step.fire,
   Step.resolve FetchO.err, Step.fire, Step.resolve FetchO.err]

/-- Claim C4 (confirmed): every reachable state of the supervisor has at
most one active poll timer and at most one active reconnect timer;
`scheduleReconnect` cancels and replaces, leaving exactly one reconnect
timer due 5000 ms later whose firing calls `connect`; `setupPolling`
likewise leaves exactly one poll interval due 3000 ms later.  In the
concrete double-failure run the second failure leaves exactly one
pending reconnect timer, which fires at 11000 ms and performs the
reconnect bridge call. -/
theorem C4_timer_uniqueness :
    (∀ ks : List Step,
      (kindFilter TKind.poll (runSteps init ks).timers).length ≤ 1
      ∧ (kindFilter TKind.reconnect (runSteps init ks).timers).length ≤ 1)
    ∧ (∀ s : SS, SSInv s →
        kindFilter TKind.reconnect (scheduleReconnect s).timers
          = [⟨s.nextId, s.now + 5000, none, TKind.reconnect⟩])
    ∧ (∀ s : SS, SSInv s →
        kindFilter TKind.poll (setupPolling s).timers
          = [⟨s.nextId, s.now + 3000, some 3000, TKind.poll⟩])
    ∧ (kindFilter TKind.reconnect (runSteps init twoFailSteps).timers
        = [⟨2, (runSteps init twoFailSteps).now + 5000, none, TKind.reconnect⟩]
       ∧ Ev.bridgeCall 11000 ∈ (runSteps init (twoFailSteps
            ++ [Step.fire, Step.resolve (FetchO.ok ⟨true, none, none⟩), Step.fire])).trace) := by
  refine ⟨?_, ?_, ?_, by decide, by decide⟩
  · intro ks
    have h := inv_runSteps ks inv_init
    exact ⟨kindCount_le_one h _, kindCount_le_one h _⟩
  · intro s hs
    obtain ⟨hb, hn, htr⟩ := hs
    cases hp : s.reconnectTimeout with
    | none =>
      simp only [scheduleReconnect, hp, kindFilter_append]
      rw [kindFilter_eq_nil (noRecon_none htr hp)]
      rfl
    | some hh =>
      simp only [scheduleReconnect, hp, kindFilter_append]
      rw [kindFilter_eq_nil (noRecon_clearT htr hp)]
      rfl
  · intro s hs
    obtain ⟨hb, hn, htr⟩ := hs
    cases hp : s.pollInterval with
    | none =>
      simp only [setupPolling, hp, kindFilter_append]
      rw [kindFilter_eq_nil (noPoll_none htr hp)]
      rfl
    | some hh =>
      simp only [setupPolling, hp, kindFilter_append]
      rw [kindFilter_eq_nil (noPoll_clearT htr hp)]
      rfl

theorem C4_witness :
    SSInv init
    ∧ kindFilter TKind.reconnect (scheduleReconnect init).timers
        = [⟨0, 5000, none, TKind.reconnect⟩] :=
  ⟨inv_init, C4_timer_uniqueness.2.1 init inv_init⟩

/-- Claim C1, counterexample: with a `fetchUsageData` still in flight at
the moment `disconnect()` is called (here: the fetch awaited by a
`connect` that started just before), the fetch's later rejection runs
`scheduleReconnect`, and advancing the clock past the 5-second delay
fires that timer, which calls `connect` and performs a bridge
invocation after the disconnect — the full trace is
[bridgeCall 0, disconnected 0, bridgeCall 5000]. -/
theorem C1_counterexample :
    bridgeAfterDisc (runSteps init
      [Step.connect, Step.disconnect, Step.resolve FetchO.err, Step.fire]).trace = true
    ∧ (runSteps init
        [Step.connect, Step.disconnect, Step.resolve FetchO.err, Step.fire]).trace
        = [Ev.bridgeCall 0, Ev.disconnected 0, Ev.bridgeCall 5000] := by
  decide

/-- Claim C1, amended (proved): `disconnect()` deterministically cancels
every active timer of the supervisor, and in runs where no
`fetchUsageData` is in flight at the moment of the call, advancing
virtual time arbitrarily far afterwards changes nothing: no timer
callback runs and no further bridge invocation occurs.  (A fetch in
flight at disconnect may still re-arm timers afterwards, as the
counterexample shows.) -/
theorem C1_amended_disconnect :
    ∀ ks : List Step,
      (disconnect (runSteps init ks)).timers = []
      ∧ ((runSteps init ks).pending = [] →
          ∀ fs : List Step, (∀ k ∈ fs, k = Step.fire) →
            runSteps (disconnect (runSteps init ks)) fs
              = disconnect (runSteps init ks)) := by
  intro ks
  have hinv := inv_runSteps ks inv_init
  have hnil := disconnect_timers_nil hinv
  refine ⟨hnil, ?_⟩
  intro _ fs hfs
  exact runSteps_fire_only hnil fs hfs

theorem C1_witness :
    (runSteps init [Step.connect, Step.resolve (FetchO.ok ⟨true, none, none⟩)]).pending = []
    ∧ ([Step.fire, Step.fire].all (fun k => k == Step.fire)) = true
    ∧ runSteps
        (disconnect (runSteps init [Step.connect, Step.resolve (FetchO.ok ⟨true, none, none⟩)]))
        [Step.fire, Step.fire]
        = disconnect (runSteps init [Step.connect, Step.resolve (FetchO.ok ⟨true, none, none⟩)]) :=
  ⟨by decide, by decide,
   (C1_amended_disconnect [Step.connect, Step.resolve (FetchO.ok ⟨true, none, none⟩)]).2
     (by decide) [Step.fire, Step.fire] (by decide)⟩

/-- Oracle for a login-polling run whose third status call (at 9000 ms)
is the first to report `logged_in = true`. -/
def oracleThirdTick : Nat → Option Bool := fun k => some (decide (2 ≤ k))

/-- Oracle for a login-polling run where `logged_in` never becomes true. -/
def oracleNever : Nat → Option Bool := fun _ => some false

/-- Claim C2, counterexample: with `timeout_seconds = 30` and the third
poll tick (9000 ms) reporting `logged_in = true`, the run signals
success exactly once and stops polling — but the companion timeout
timer, whose handle is never cleared (lines 563-566 arm it and nothing
cancels it), still fires at 30000 ms, contradicting the claim that it
does not fire. -/
theorem C2_counterexample :
    (loginRun oracleThirdTick (some 30) 12).trace
      = [LEv.statusCall 3000, LEv.statusCall 6000, LEv.statusCall 9000,
         LEv.success 9000, LEv.timeoutFired 30000]
    ∧ (loginRun oracleThirdTick (some 30) 12).trace.any isTO = true := by
  decide

/-- Claim C2, amended (proved): for every oracle, timeout value and run
length, the login poller signals success at most once, performs no
status call after a success, and performs no event of any kind after
the timeout fires — so polling stops at `timeout_seconds` with no
auto-retry; a missing `timeout_seconds` defaults to 600; the 30 s /
third-tick run signals success exactly once; and a run whose status
never reports `logged_in = true` polls at 3000/6000/9000 ms and stops
for good when the 10 s timeout fires.  The timeout timer itself is not
cancelled on success: it fires regardless, harmlessly (its firing is
the last event of the trace, with no bridge call or success after it). -/
theorem C2_amended_login_poller :
    (∀ (o : Nat → Option Bool) (tsOpt : Option Nat) (n : Nat),
      (loginRun o tsOpt n).trace.countP isSucc ≤ 1
      ∧ callAfterSucc (loginRun o tsOpt n).trace = false
      ∧ evAfterTO (loginRun o tsOpt n).trace = false)
    ∧ (∀ (o : Nat → Option Bool) (n : Nat), loginRun o none n = lrunAux o n (loginInit 600))
    ∧ (loginRun oracleThirdTick (some 30) 12).trace.countP isSucc = 1
    ∧ (loginRun oracleNever (some 10) 12).trace
        = [LEv.statusCall 3000, LEv.statusCall 6000, LEv.statusCall 9000,
           LEv.timeoutFired 10000] := by
  refine ⟨?_, ?_, by decide, by decide⟩
  · intro o tsOpt n
    have h := (linv_loginRun o tsOpt n).1
    exact ⟨traceOk_countSucc false h, traceOk_callAfterSucc false h,
           traceOk_evAfterTO false h⟩
  · intro o n
    rfl

/-- Claim C5 (confirmed): for a `status()` result with
`logged_in = false`, `fetchUsageData` returns normally and emits
nothing; for `{logged_in: true, points: 5, total_points: "∞"}` it emits
exactly one usage snapshot carrying points 5 and the sentinel string
"∞" unchanged; and for any logged-in result the emitted snapshot
defaults missing `points`/`total_points` to 0. -/
theorem C5_fetch_emission :
    (∀ r : StatusResult, r.logged_in = false → fetchUsageData (FetchO.ok r) = .ok [])
    ∧ fetchEmits ⟨true, some (.num 5), some (.str "∞")⟩
        = [⟨some (.num 5), some (.str "∞"), some (.str "-")⟩]
    ∧ (∀ p tp : Option NumOrStr,
        fetchEmits ⟨true, p, tp⟩
          = [⟨some (p.getD (.num 0)), some (tp.getD (.num 0)), some (.str "-")⟩]) := by
  refine ⟨?_, by decide, ?_⟩
  · intro r h
    simp [fetchUsageData, fetchEmits, h]
  · intro p tp
    simp [fetchEmits, emitGuard, mkUsageData]

theorem C5_witness :
    (⟨false, none, none⟩ : StatusResult).logged_in = false
    ∧ fetchUsageData (FetchO.ok ⟨false, none, none⟩) = .ok [] :=
  ⟨rfl, C5_fetch_emission.1 _ rfl⟩

/-- Claim C9 (confirmed): every logged-in `status()` result makes
`fetchUsageData` emit exactly one usage event — in particular the
fully-empty result `{logged_in: true}` emits
`{points: 0, total_points: 0, context_length: "-"}` — because the
`?? 0` defaults of lines 70-72 run before the line-78 presence check,
which therefore always passes and never suppresses emission. -/
theorem C9_always_emits :
    (∀ r : StatusResult, r.logged_in = true → (fetchEmits r).length = 1)
    ∧ fetchEmits ⟨true, none, none⟩
        = [⟨some (.num 0), some (.num 0), some (.str "-")⟩]
    ∧ (∀ r : StatusResult, emitGuard (mkUsageData r) = true) := by
  refine ⟨?_, by decide, ?_⟩
  · intro r h
    simp [fetchEmits, h, emitGuard, mkUsageData]
  · intro r
    simp [emitGuard, mkUsageData]

theorem C9_witness :
    (⟨true, none, none⟩ : StatusResult).logged_in = true
    ∧ (fetchEmits ⟨true, none, none⟩).length = 1 :=
  ⟨rfl, C9_always_emits.1 _ rfl⟩

theorem no_exe_suffix (x y q : String) (hy : lastOf y.data = some 'a')
    (h : x ++ y = q ++ ".exe") : False := by
  have hynil : y.data ≠ [] := by
    intro hn
    rw [hn] at hy
    cases hy
  have hd := congrArg String.data h
  rw [String.data_append_eq, String.data_append_eq] at hd
  have h1 : lastOf (x.data ++ y.data) = some 'a' := by
    rw [lastOf_append _ _ hynil]
    exact hy
  rw [hd, lastOf_append _ _ (by decide)] at h1
  exact absurd h1 (by decide)

/-- Claim C6 (confirmed): binary resolution is a pure function of
platform and architecture, returning the bundled path ending in
darwin-universal/costa on macOS, win32-x64/costa.exe on Windows,
linux-arm64/costa on Linux ARM64 and linux-x64/costa otherwise; only
the Windows path carries the .exe suffix; and when the bundled path is
absent on disk, `run` selects the unqualified name "costa" for
PATH-style resolution by the loader. -/
theorem C6_binary_resolution :
    (∀ e a : String, getBundledCliPath e "darwin" a = e ++ "/res/bin/darwin-universal/costa")
    ∧ (∀ e a : String, getBundledCliPath e "win32" a = e ++ "/res/bin/win32-x64/costa.exe")
    ∧ (∀ e p : String, p ≠ "darwin" → p ≠ "win32" →
        getBundledCliPath e p "arm64" = e ++ "/res/bin/linux-arm64/costa")
    ∧ (∀ e p a : String, p ≠ "darwin" → p ≠ "win32" → a ≠ "arm64" →
        getBundledCliPath e p a = e ++ "/res/bin/linux-x64/costa")
    ∧ (∀ e p a q : String, p ≠ "win32" → getBundledCliPath e p a ≠ q ++ ".exe")
    ∧ (∀ b : String, selectBin b false = "costa") := by
  refine ⟨?_, ?_, ?_, ?_, ?_, fun b => rfl⟩
  · intro e a
    show pathJoin [e, "res", "bin", "darwin-universal", "costa"] = _
    show e ++ "/" ++ pathJoin ["res", "bin", "darwin-universal", "costa"] = _
    rw [String.append_assoc]
    rfl
  · intro e a
    show pathJoin [e, "res", "bin", "win32-x64", "costa.exe"] = _
    show e ++ "/" ++ pathJoin ["res", "bin", "win32-x64", "costa.exe"] = _
    rw [String.append_assoc]
    rfl
  · intro e p h1 h2
    have hr : getBundledCliPath e p "arm64"
        = pathJoin [e, "res", "bin", "linux-arm64", "costa"] := by
      simp [getBundledCliPath, h1, h2]
    rw [hr]
    show e ++ "/" ++ pathJoin ["res", "bin", "linux-arm64", "costa"] = _
    rw [String.append_assoc]
    rfl
  · intro e p a h1 h2 h3
    have hr : getBundledCliPath e p a
        = pathJoin [e, "res", "bin", "linux-x64", "costa"] := by
      simp [getBundledCliPath, h1, h2, h3]
    rw [hr]
    show e ++ "/" ++ pathJoin ["res", "bin", "linux-x64", "costa"] = _
    rw [String.append_assoc]
    rfl
  · intro e p a q hp heq
    by_cases h1 : p = "darwin"
    · subst h1
      have hr : getBundledCliPath e "darwin" a
          = e ++ "/" ++ pathJoin ["res", "bin", "darwin-universal", "costa"] := rfl
      rw [hr] at heq
      exact no_exe_suffix (e ++ "/") _ q (by decide) heq
    · by_cases h3 : a = "arm64"
      · subst h3
        have hr : getBundledCliPath e p "arm64"
            = pathJoin [e, "res", "bin", "linux-arm64", "costa"] := by
          simp [getBundledCliPath, h1, hp]
        rw [hr] at heq
        exact no_exe_suffix (e ++ "/") (pathJoin ["res", "bin", "linux-arm64", "costa"]) q
          (by decide) heq
      · have hr : getBundledCliPath e p a
            = pathJoin [e, "res", "bin", "linux-x64", "costa"] := by
          simp [getBundledCliPath, h1, hp, h3]
        rw [hr] at heq
        exact no_exe_suffix (e ++ "/") (pathJoin ["res", "bin", "linux-x64", "costa"]) q
          (by decide) heq

theorem C6_witness :
    ("linux" : String) ≠ "darwin" ∧ ("linux" : String) ≠ "win32"
    ∧ ("x64" : String) ≠ "arm64"
    ∧ getBundledCliPath "/e" "linux" "x64" = "/e" ++ "/res/bin/linux-x64/costa" :=
  ⟨by decide, by decide, by decide,
   C6_binary_resolution.2.2.2.1 "/e" "linux" "x64" (by decide) (by decide) (by decide)⟩

/-- Claim C7 (confirmed): when the bundled binary is absent (so the
fallback name "costa" is used) and the spawn fails with ENOENT, `run`
rejects with the distinct, user-actionable not-found error — not the
generic error embedding the OS error and stderr — whatever the
platform, architecture, arguments and context. -/
theorem C7_fallback_not_found :
    (∀ (c : Ctx) (root : String) (args : List String) (p a : String) (beh : ProcBeh),
      extRootOf c = some root → root ≠ "" → beh.spawnErrCode = some "ENOENT" →
      run (some c) args p a false beh = ⟨.error RunError.cliNotFound, true⟩)
    ∧ RunError.cliNotFound.message
        = "Costa CLI not found. Please reinstall the extension or install costa CLI manually."
    ∧ (∀ m : String, RunError.cliNotFound ≠ RunError.generic m) := by
  refine ⟨?_, rfl, ?_⟩
  · intro c root args p a beh h1 h2 h3
    obtain ⟨sc, rt, ec, so, se⟩ := beh
    simp only at h3
    subst h3
    simp only [run, h1, if_neg h2, selectBin]
    have hif : (if (false = true) then getBundledCliPath root p a else "costa") = "costa" := by
      simp
    rw [hif]
    have hexec : execFileSem "costa" runTimeoutMs ⟨some "ENOENT", rt, ec, so, se⟩
        = (some ⟨"spawn costa ENOENT", false⟩, "", "") := rfl
    rw [hexec]
    have hcb : runCallback "costa" (some ⟨"spawn costa ENOENT", false⟩) "" ""
        = .error RunError.cliNotFound := by decide
    rw [hcb]
  · intro m h
    cases h

theorem C7_witness :
    extRootOf ⟨some "/w", none⟩ = some "/w" ∧ ("/w" : String) ≠ ""
    ∧ (⟨some "ENOENT", 0, 0, "", ""⟩ : ProcBeh).spawnErrCode = some "ENOENT"
    ∧ run (some ⟨some "/w", none⟩) statusArgs "linux" "x64" false ⟨some "ENOENT", 0, 0, "", ""⟩
        = ⟨.error RunError.cliNotFound, true⟩ :=
  ⟨rfl, by decide, rfl,
   C7_fallback_not_found.1 ⟨some "/w", none⟩ "/w" statusArgs "linux" "x64"
     ⟨some "ENOENT", 0, 0, "", ""⟩ rfl (by decide) rfl⟩

def ctxDemo : Ctx := ⟨some "/ext", none⟩

/-- A child process that would run for 20 s (outliving the 15 s limit). -/
def behTimeout : ProcBeh := ⟨none, 20000, 0, "", ""⟩

/-- A child process that exits quickly with a non-zero code. -/
def behExitFail : ProcBeh := ⟨none, 100, 1, "", ""⟩

/-- Claim C8, counterexample: a child exceeding the 15 s limit makes
`run` reject with the same `generic` error used for a non-zero exit —
the two invocations produce literally equal results, so the timeout
failure is not a distinct error kind in the code's classification. -/
theorem C8_counterexample :
    (run (some ctxDemo) statusArgs "linux" "x64" true behTimeout).result
      = .error (RunError.generic "Error: Command failed: /ext/res/bin/linux-x64/costa")
    ∧ run (some ctxDemo) statusArgs "linux" "x64" true behTimeout
      = run (some ctxDemo) statusArgs "linux" "x64" true behExitFail := by
  decide

/-- Claim C8, amended (proved): `run` passes a fixed 15000 ms timeout to
`execFile`; a child with no spawn error that runs beyond 15 s is killed
(`killed = true` — no lingering process) and the call fails; but the
resulting rejection is one of only two kinds — the not-found error or
the generic error embedding the OS error and stderr — with no distinct
timeout kind. -/
theorem C8_amended_timeout_generic :
    runTimeoutMs = 15000
    ∧ (∀ (bin : String) (beh : ProcBeh), beh.spawnErrCode = none → 15000 < beh.runtimeMs →
        (execFileSem bin runTimeoutMs beh).1 = some ⟨"Command failed: " ++ bin, true⟩)
    ∧ (∀ (bin : String) (e : ExecErr) (so se : String),
        runCallback bin (some e) so se = .error RunError.cliNotFound
        ∨ ∃ m, runCallback bin (some e) so se = .error (RunError.generic m)) := by
  refine ⟨rfl, ?_, ?_⟩
  · intro bin beh h1 h2
    obtain ⟨sc, rt, ec, so, se⟩ := beh
    simp only at h1 h2
    subst h1
    simp [execFileSem, runTimeoutMs, h2]
  · intro bin e so se
    by_cases hc : (strIncludes e.message "ENOENT" && bin == "costa") = true
    · left
      simp [runCallback, hc]
    · right
      refine ⟨if jsTrim se ≠ "" then errToString e ++ "\n" ++ jsTrim se else errToString e, ?_⟩
      simp only [runCallback, Bool.not_eq_true] at hc ⊢
      rw [if_neg (by simp [hc])]

theorem C8_witness :
    behTimeout.spawnErrCode = none ∧ 15000 < behTimeout.runtimeMs
    ∧ (execFileSem "costa" runTimeoutMs behTimeout).1
        = some ⟨"Command failed: costa", true⟩ :=
  ⟨rfl, by decide, C8_amended_timeout_generic.2.1 "costa" behTimeout rfl (by decide)⟩

/-- Claim C10 (confirmed): every facade operation — login, status,
token, logout — invoked before `setContext` rejects with the error
whose message is "CLI context not initialized. Call setContext() first."
and spawns no subprocess; after `setContext` installs a context whose
extension root resolves to a non-empty path, that error branch is
unreachable. -/
theorem C10_context_precondition :
    (∀ (parse : String → Option LoginResult) (p a : String) (fs : Bool) (beh : ProcBeh),
      login parse none p a fs beh = (.error (.bridge .ctxNotInit), false))
    ∧ (∀ (parse : String → Option StatusResult) (p a : String) (fs : Bool) (beh : ProcBeh),
      status parse none p a fs beh = (.error (.bridge .ctxNotInit), false))
    ∧ (∀ (parse : String → Option TokenResult) (p a : String) (fs : Bool) (beh : ProcBeh),
      token parse none p a fs beh = (.error (.bridge .ctxNotInit), false))
    ∧ (∀ (p a : String) (fs : Bool) (beh : ProcBeh),
      logout none p a fs beh = (.error (.bridge .ctxNotInit), false))
    ∧ RunError.ctxNotInit.message = "CLI context not initialized. Call setContext() first."
    ∧ (∀ (c : Ctx) (root : String) (args : List String) (p a : String) (fs : Bool)
        (beh : ProcBeh),
        extRootOf c = some root → root ≠ "" →
        (run (setContext c) args p a fs beh).result ≠ .error RunError.ctxNotInit) := by
  refine ⟨fun _ _ _ _ _ => rfl, fun _ _ _ _ _ => rfl, fun _ _ _ _ _ => rfl,
    fun _ _ _ _ => rfl, rfl, ?_⟩
  intro c root args p a fs beh h1 h2
  simp only [setContext, run, h1, if_neg h2]
  rcases hout : execFileSem (selectBin (getBundledCliPath root p a) fs) runTimeoutMs beh
    with ⟨er, so, se⟩
  cases er with
  | none => simp [runCallback]
  | some e =>
    simp only [runCallback]
    split
    · simp
    · simp

theorem C10_witness :
    extRootOf ⟨some "/e", none⟩ = some "/e" ∧ ("/e" : String) ≠ ""
    ∧ (run (setContext ⟨some "/e", none⟩) statusArgs "linux" "x64" false
        ⟨none, 10, 0, "ok", ""⟩).result ≠ .error RunError.ctxNotInit :=
  ⟨rfl, by decide,
   C10_context_precondition.2.2.2.2.2 ⟨some "/e", none⟩ "/e" statusArgs "linux" "x64" false
     ⟨none, 10, 0, "ok", ""⟩ rfl (by decide)⟩
